import Mathlib

/-
Shallow embedding of `isaac_battery_model.c`, a lithium-ion cell
equivalent-circuit simulator.

Modelling conventions:
- C `float` arithmetic is modelled by exact rationals.
- The C `(int)` cast is modelled by truncation toward zero
  (`c_int_of_float`).
- A read past the end of a calibration table (which the C code can
  perform through its temperature-axis index saturation) has an
  indeterminate value in C; it is modelled by an explicit `junk`
  function supplied as a parameter, and results that could depend on
  such a read are quantified over `junk`.
-/

/-- Number of state-of-charge entries in each table row (macro
`battery_model_table_SOCs` in the source): 0.0, 0.1, ..., 1.0. -/
def battery_model_table_SOCs : ℕ := 11

/-- Number of temperature rows in each table (macro
`battery_model_table_temps` in the source). -/
def battery_model_table_temps : ℕ := 4

/-- Battery state (`struct battery_model`). -/
structure battery_model where
  capacityAs : ℚ
  SOC : ℚ
  C1Q : ℚ
  cellT : ℚ
  deriving DecidableEq, Repr

/-- Resolved circuit parameters (`struct battery_model_parameters`). -/
structure battery_model_parameters where
  Em : ℚ
  R0 : ℚ
  R1 : ℚ
  C1 : ℚ
  deriving DecidableEq, Repr

/-- The fixed ascending temperature bucket values
(`battery_model_temperatures`). -/
def battery_model_temperatures_data : List ℚ := [-20.0, -10.0, -5.0, 2.0]

/-- Array access into the temperature bucket array; every access the
program performs is in bounds, so the default is never consulted. -/
def battery_model_temperatures (i : ℕ) : ℚ :=
  battery_model_temperatures_data.getD i 0

/-- Open-circuit voltage table data (`battery_model_Em`). -/
def battery_model_Em_data : List (List ℚ) :=
  [[3.5, 3.65, 3.7, 3.75, 3.78, 3.8, 3.85, 3.9, 3.95, 4.1, 4.2],
   [3.5, 3.65, 3.7, 3.746368, 3.794009, 3.824597, 3.870755, 3.921037, 3.984153, 4.1, 4.2],
   [3.5, 3.717802, 3.751656, 3.779548, 3.805342, 3.837747, 3.886275, 3.92452, 4.019383, 4.131402, 4.2],
   [3.5, 3.723299, 3.754516, 3.788628, 3.812054, 3.840599, 3.888213, 3.933897, 4.024288, 4.130746, 4.182739]]

/-- Series output resistance table data (`battery_model_R0`). -/
def battery_model_R0_data : List (List ℚ) :=
  [[0.26, 0.26, 0.26, 0.13, 0.13, 0.13, 0.13, 0.13, 0.25, 0.2, 0.67],
   [0.3, 0.050589, 0.144401, 0.085073, 0.091675, 0.085872, 0.08382, 0.084737, 0.075961, 0.15, 0.25],
   [0.2, 0.029142, 0.029737, 0.031219, 0.031587, 0.030885, 0.031477, 0.030845, 0.030875, 0.025, 0.016],
   [0.032564, 0.022225, 0.019854, 0.024638, 0.022878, 0.021342, 0.022003, 0.02195, 0.021421, 0.023454, 0.014168]]

/-- Short-term deep-draw resistance table data (`battery_model_R1`). -/
def battery_model_R1_data : List (List ℚ) :=
  [[2, 0.75, 0.21, 0.190953, 0.147748, 0.127334, 0.143009, 0.180778, 0.1, 0.261743, 0.85],
   [0.003815, 0.007988, 0.020238, 0.015108, 0.01404, 0.014878, 0.014838, 0.014781, 0.015083, 0.15, 0.3],
   [0.011421, 0.003253, 0.012514, 0.00939, 0.010378, 0.009284, 0.008821, 0.008391, 0.010644, 0.008414, 0.007233],
   [0.025991, 0.003294, 0.013872, 0.013772, 0.013957, 0.011306, 0.01088, 0.01135, 0.015937, 0.012274, 0.007585]]

/-- Short-term capacitance table data (`battery_model_C1`). -/
def battery_model_C1_data : List (List ℚ) :=
  [[400, 500, 600, 846, 846, 846, 846, 846, 600, 846, 596],
   [14.34898, 28719.38, 1818.858, 5832.355, 8962.667, 8772.705, 8750.688, 8565.881, 7004.807, 11188.4, 7370.326],
   [0.881527, 33414.97, 2179.029, 11289.18, 7234.158, 6226.428, 5750.18, 9030.291, 3869.932, 11851, 7122.03],
   [0.262732, 50759.86, 3022.06, 15720.72, 8308.124, 7180.572, 6619.685, 13150.94, 4201.662, 15103.12, 6852.036]]

/-- Access `table->values[i][j]`.  In-bounds accesses return the stored
datum; an out-of-bounds access reads indeterminate adjacent memory in C
and is modelled by the `junk` parameter. -/
def battery_model_table_get (data : List (List ℚ)) (junk : ℕ → ℕ → ℚ) (i j : ℕ) : ℚ :=
  (((data.get? i).bind fun row => row.get? j).getD (junk i j))

/-- The Em table as a total access function. -/
def battery_model_Em (junk : ℕ → ℕ → ℚ) : ℕ → ℕ → ℚ :=
  battery_model_table_get battery_model_Em_data junk

/-- The R0 table as a total access function. -/
def battery_model_R0 (junk : ℕ → ℕ → ℚ) : ℕ → ℕ → ℚ :=
  battery_model_table_get battery_model_R0_data junk

/-- The R1 table as a total access function. -/
def battery_model_R1 (junk : ℕ → ℕ → ℚ) : ℕ → ℕ → ℚ :=
  battery_model_table_get battery_model_R1_data junk

/-- The C1 table as a total access function. -/
def battery_model_C1 (junk : ℕ → ℕ → ℚ) : ℕ → ℕ → ℚ :=
  battery_model_table_get battery_model_C1_data junk

/-- The saturated "next" SOC column computed at the top of
`battery_model_interpolate`: `SOC_next = SOC_index + 1`, clamped to
`battery_model_table_SOCs - 1`. -/
def battery_model_SOC_next (SOC_index : ℕ) : ℕ :=
  if battery_model_table_SOCs ≤ SOC_index + 1 then battery_model_table_SOCs - 1
  else SOC_index + 1

/-- The saturated "next" temperature row computed in
`battery_model_interpolate`: `T_next = T_index + 1`, and if that reaches
`battery_model_table_temps` it is set to `battery_model_table_temps`
itself (one past the last valid row), exactly as the source writes it. -/
def battery_model_T_next (T_index : ℕ) : ℕ :=
  if battery_model_table_temps ≤ T_index + 1 then battery_model_table_temps
  else T_index + 1

/-- Bilinear interpolation of one parameter
(`battery_model_interpolate`). -/
def battery_model_interpolate (table : ℕ → ℕ → ℚ)
    (T_number : ℚ) (T_index : ℕ) (SOC_number : ℚ) (SOC_index : ℕ) : ℚ :=
  let SOC_next := battery_model_SOC_next SOC_index
  let T_next := battery_model_T_next T_index
  let II := table T_index SOC_index
  let IN := table T_index SOC_next
  let TI := table T_next SOC_index
  let TN := table T_next SOC_next
  let I := II + (IN - II) * (SOC_number - (SOC_index : ℚ))
  let T := TI + (TN - TI) * (SOC_number - (SOC_index : ℚ))
  I + (T - I) * (T_number - (T_index : ℚ))

/-- The C cast `(int)x` on a real value: truncation toward zero. -/
def c_int_of_float (q : ℚ) : ℤ :=
  if q < 0 then -(⌊-q⌋) else ⌊q⌋

/-- The SOC coordinate computation at the top of
`battery_model_get_parameters`: `SOC_number = SOC * (SOCs - 1)`,
`SOC_index = (int)SOC_number`, then the two sequential clamps of the
source (`SOC_index < 0` and `SOC_index >= SOCs`). -/
def battery_model_SOC_lookup (SOC : ℚ) : ℚ × ℤ :=
  let SOC_number : ℚ := SOC * ((battery_model_table_SOCs - 1 : ℕ) : ℚ)
  let SOC_index : ℤ := c_int_of_float SOC_number
  if SOC_index < 0 then (0, 0)
  else if (battery_model_table_SOCs : ℤ) ≤ SOC_index then
    (((battery_model_table_SOCs - 1 : ℕ) : ℚ), ((battery_model_table_SOCs - 1 : ℕ) : ℤ))
  else (SOC_number, SOC_index)

/-- The temperature scan loop of `battery_model_get_parameters`:
starting from `T_index`, advance while `T_index + 1 < temps` and
`temperatures[T_index + 1] <= lookupT`.  The loop body runs at most
`temps - 1` times, so running it with fuel `temps` is exact. -/
def battery_model_T_scan (lookupT : ℚ) : ℕ → ℕ → ℕ
  | T_index, 0 => T_index
  | T_index, fuel + 1 =>
    if T_index + 1 < battery_model_table_temps ∧
        battery_model_temperatures (T_index + 1) ≤ lookupT then
      battery_model_T_scan lookupT (T_index + 1) fuel
    else T_index

/-- The temperature floor index resolved for a cell temperature. -/
def battery_model_T_index_of (lookupT : ℚ) : ℕ :=
  battery_model_T_scan lookupT 0 battery_model_table_temps

/-- The temperature coordinate computation of
`battery_model_get_parameters`: the scan loop, then `T_number = 0`
overwritten with `T_index + (lookupT - last)/(next - last)` whenever
`T_index + 1 < temps`. -/
def battery_model_T_lookup (lookupT : ℚ) : ℚ × ℕ :=
  let T_index := battery_model_T_index_of lookupT
  let T_number : ℚ :=
    if T_index + 1 < battery_model_table_temps then
      (T_index : ℚ) +
        (lookupT - battery_model_temperatures T_index) /
          (battery_model_temperatures (T_index + 1) - battery_model_temperatures T_index)
    else 0
  (T_number, T_index)

/-- Parameter resolution (`battery_model_get_parameters`): resolve the
SOC and temperature coordinates from the battery state and query all
four tables through the interpolator. -/
def battery_model_get_parameters (junk : ℕ → ℕ → ℚ) (battery : battery_model) :
    battery_model_parameters :=
  let SL := battery_model_SOC_lookup battery.SOC
  let TL := battery_model_T_lookup battery.cellT
  { Em := battery_model_interpolate (battery_model_Em junk) TL.1 TL.2 SL.1 SL.2.toNat
    R0 := battery_model_interpolate (battery_model_R0 junk) TL.1 TL.2 SL.1 SL.2.toNat
    R1 := battery_model_interpolate (battery_model_R1 junk) TL.1 TL.2 SL.1 SL.2.toNat
    C1 := battery_model_interpolate (battery_model_C1 junk) TL.1 TL.2 SL.1 SL.2.toNat }

/-- Constructor (`battery_model_init`): fills every field of the state;
the source performs no validation of any argument. -/
def battery_model_init (capacityAh SOC tempC : ℚ) : battery_model :=
  { capacityAs := capacityAh * 3600.0
    SOC := SOC
    C1Q := 0.0
    cellT := tempC }

/-- Terminal voltage estimate (`battery_model_voltage`); the C function
takes the state by `const` pointer and returns only a number. -/
def battery_model_voltage (junk : ℕ → ℕ → ℚ) (battery : battery_model) (amps : ℚ) : ℚ :=
  let param := battery_model_get_parameters junk battery
  let R0V := param.R0 * amps
  let R1V := battery.C1Q / param.C1
  param.Em - R1V - R0V

/-- Electrical state update (`battery_model_electrical`): returns the
mutated state together with the heat energy in joules. -/
def battery_model_electrical (junk : ℕ → ℕ → ℚ) (battery : battery_model)
    (amps dt : ℚ) : battery_model × ℚ :=
  let param := battery_model_get_parameters junk battery
  let R0I := amps
  let R0V := param.R0 * R0I
  let C1V := battery.C1Q / param.C1
  let R1V := C1V
  let R1I := R1V / param.R1
  let C1I := amps - R1I
  let C1Q := battery.C1Q + C1I * dt
  let SOC_amps := amps
  let SOC := battery.SOC - SOC_amps * dt / battery.capacityAs
  let power := R0V * R0I + R1V * R1I
  let energy := power * dt
  ({ battery with C1Q := C1Q, SOC := SOC }, energy)

/-- Thermal state update (`battery_model_thermal`). -/
def battery_model_thermal (battery : battery_model)
    (heating_joules specific_heat mass ambientT Rvalue area dt : ℚ) : battery_model :=
  let cool_joules := (battery.cellT - ambientT) * area / Rvalue * dt
  let netT := (heating_joules - cool_joules) / (specific_heat * mass)
  { battery with cellT := battery.cellT + netT }

/-- Repeated application of the electrical update at a fixed draw
current and timestep (the spec's "repeated zero-draw steps"). -/
def battery_model_electrical_iter (junk : ℕ → ℕ → ℚ) (amps dt : ℚ) :
    ℕ → battery_model → battery_model
  | 0, battery => battery
  | n + 1, battery =>
    battery_model_electrical_iter junk amps dt n
      (battery_model_electrical junk battery amps dt).1

/-- A fixed instantiation of the indeterminate out-of-bounds memory,
used to build concrete witness states. -/
def battery_model_oob_zero : ℕ → ℕ → ℚ := fun _ _ => 0

/-- A fully charged cell at the lowest calibrated temperature, as the
demo driver constructs it. -/
def battery_model_demo_state : battery_model :=
  { capacityAs := 6480, SOC := 1, C1Q := 0, cellT := -20 }

/-- A cell colder than the lowest calibrated temperature bucket. -/
def battery_model_cold_state : battery_model :=
  { capacityAs := 6480, SOC := 3/10, C1Q := 0, cellT := -30 }

/-- The same cell at exactly the lowest calibrated temperature. -/
def battery_model_floor_state : battery_model :=
  { capacityAs := 6480, SOC := 3/10, C1Q := 0, cellT := -20 }

/-- A cell warmer than the highest calibrated temperature bucket. -/
def battery_model_hot_state : battery_model :=
  { capacityAs := 6480, SOC := 3/10, C1Q := 0, cellT := 5 }

/-- A fully charged cold cell with one coulomb on the relaxation
capacitor. -/
def battery_model_relax_state : battery_model :=
  { capacityAs := 6480, SOC := 1, C1Q := 1, cellT := -20 }

/-- Unfolding of the parameter resolver in terms of its coordinate
helpers. -/
theorem battery_model_gp_unfold (junk : ℕ → ℕ → ℚ) (b : battery_model) :
    battery_model_get_parameters junk b =
      { Em := battery_model_interpolate (battery_model_Em junk)
          (battery_model_T_lookup b.cellT).1 (battery_model_T_lookup b.cellT).2
          (battery_model_SOC_lookup b.SOC).1 (battery_model_SOC_lookup b.SOC).2.toNat
        R0 := battery_model_interpolate (battery_model_R0 junk)
          (battery_model_T_lookup b.cellT).1 (battery_model_T_lookup b.cellT).2
          (battery_model_SOC_lookup b.SOC).1 (battery_model_SOC_lookup b.SOC).2.toNat
        R1 := battery_model_interpolate (battery_model_R1 junk)
          (battery_model_T_lookup b.cellT).1 (battery_model_T_lookup b.cellT).2
          (battery_model_SOC_lookup b.SOC).1 (battery_model_SOC_lookup b.SOC).2.toNat
        C1 := battery_model_interpolate (battery_model_C1 junk)
          (battery_model_T_lookup b.cellT).1 (battery_model_T_lookup b.cellT).2
          (battery_model_SOC_lookup b.SOC).1 (battery_model_SOC_lookup b.SOC).2.toNat } := rfl

/-- The parameter resolver reads only the SOC and cell temperature of
the state. -/
theorem battery_model_gp_congr (junk : ℕ → ℕ → ℚ) (b b' : battery_model)
    (hS : b.SOC = b'.SOC) (hT : b.cellT = b'.cellT) :
    battery_model_get_parameters junk b = battery_model_get_parameters junk b' := by
  rw [battery_model_gp_unfold, battery_model_gp_unfold, hS, hT]

/-- Resolver evaluation: once both coordinate lookups are known, the
four parameters are the corresponding interpolations. -/
theorem battery_model_gp_eval (junk : ℕ → ℕ → ℚ) (b : battery_model)
    (Tn : ℚ) (Ti : ℕ) (Sn : ℚ) (Si : ℕ)
    (hT : battery_model_T_lookup b.cellT = (Tn, Ti))
    (hS : battery_model_SOC_lookup b.SOC = (Sn, (Si : ℤ))) :
    battery_model_get_parameters junk b =
      { Em := battery_model_interpolate (battery_model_Em junk) Tn Ti Sn Si
        R0 := battery_model_interpolate (battery_model_R0 junk) Tn Ti Sn Si
        R1 := battery_model_interpolate (battery_model_R1 junk) Tn Ti Sn Si
        C1 := battery_model_interpolate (battery_model_C1 junk) Tn Ti Sn Si } := by
  rw [battery_model_gp_unfold, hT, hS]
  simp

/-- Evaluation of the temperature coordinate at the lowest calibrated
temperature. -/
theorem battery_model_T_lookup_at_lowest :
    battery_model_T_lookup (-20) = (0, 0) := by
  norm_num [battery_model_T_lookup, battery_model_T_index_of, battery_model_T_scan,
    battery_model_temperatures, battery_model_temperatures_data, battery_model_table_temps]

/-- Evaluation of the SOC coordinate at full charge. -/
theorem battery_model_SOC_lookup_at_one :
    battery_model_SOC_lookup 1 = (10, ((10 : ℕ) : ℤ)) := by
  norm_num [battery_model_SOC_lookup, c_int_of_float, battery_model_table_SOCs]

/-- Resolved parameters of the demo state (full charge at -20 degrees):
each one is the last entry of its table's first row. -/
theorem battery_model_gp_demo_eval :
    battery_model_get_parameters battery_model_oob_zero battery_model_demo_state
      = { Em := 4.2, R0 := 0.67, R1 := 0.85, C1 := 596 } := by
  rw [battery_model_gp_eval battery_model_oob_zero battery_model_demo_state 0 0 10 10
    battery_model_T_lookup_at_lowest battery_model_SOC_lookup_at_one]
  norm_num [battery_model_interpolate, battery_model_Em, battery_model_R0, battery_model_R1,
    battery_model_C1, battery_model_table_get, battery_model_SOC_next, battery_model_T_next,
    battery_model_Em_data, battery_model_R0_data, battery_model_R1_data, battery_model_C1_data,
    battery_model_table_SOCs, battery_model_table_temps, List.get?]

/-- Below the lowest calibrated temperature the scan stops at row 0 and
the fractional coordinate is `(lookupT + 20) / 10`, which is negative:
the resolver extrapolates linearly instead of clamping. -/
theorem battery_model_T_lookup_low (lookupT : ℚ) (h : lookupT < -20) :
    battery_model_T_lookup lookupT = ((lookupT + 20) / 10, 0) := by
  have h1 : ¬ ((-10 : ℚ) ≤ lookupT) := not_le.mpr (by linarith)
  simp only [battery_model_T_lookup, battery_model_T_index_of, battery_model_T_scan,
    battery_model_table_temps, battery_model_temperatures, battery_model_temperatures_data]
  norm_num [h1]

/-- At or above the highest calibrated temperature the scan stops at the
last row with the fractional coordinate left at its initial value 0. -/
theorem battery_model_T_lookup_high (lookupT : ℚ) (h : 2 ≤ lookupT) :
    battery_model_T_lookup lookupT = (0, 3) := by
  have h1 : (-10 : ℚ) ≤ lookupT := by linarith
  have h2 : (-5 : ℚ) ≤ lookupT := by linarith
  simp only [battery_model_T_lookup, battery_model_T_index_of, battery_model_T_scan,
    battery_model_table_temps, battery_model_temperatures, battery_model_temperatures_data]
  norm_num [h1, h2, h]

/-- For SOC in `[0, 1)` the truncation agrees with the floor, which is
in range, so neither clamp fires. -/
theorem battery_model_SOC_lookup_in_range (soc : ℚ) (h0 : 0 ≤ soc) (h1 : soc < 1) :
    battery_model_SOC_lookup soc = (soc * 10, ⌊soc * 10⌋) := by
  have hnn : (0 : ℚ) ≤ soc * 10 := by positivity
  have hlt : soc * 10 < 10 := by linarith
  have hfl0 : (0 : ℤ) ≤ ⌊soc * 10⌋ := Int.floor_nonneg.mpr hnn
  have hfl10 : ⌊soc * 10⌋ < 11 := Int.floor_lt.mpr (by norm_num; linarith)
  have hc : c_int_of_float (soc * 10) = ⌊soc * 10⌋ := by
    unfold c_int_of_float
    rw [if_neg (not_lt.mpr hnn)]
  simp only [battery_model_SOC_lookup, battery_model_table_SOCs]
  norm_num [hc]
  rw [if_neg (not_lt.mpr hfl0), if_neg (not_le.mpr hfl10)]

/-- For SOC at or below `-1/10` the truncated index is negative and the
first clamp fires. -/
theorem battery_model_SOC_lookup_low (soc : ℚ) (h : soc ≤ -(1/10)) :
    battery_model_SOC_lookup soc = (0, 0) := by
  have hneg : soc * 10 < 0 := by nlinarith
  have hone : (1 : ℚ) ≤ -(soc * 10) := by nlinarith
  have hfl : (1 : ℤ) ≤ ⌊-(soc * 10)⌋ := Int.le_floor.mpr (by exact_mod_cast hone)
  have hc : c_int_of_float (soc * 10) = -⌊-(soc * 10)⌋ := by
    unfold c_int_of_float
    rw [if_pos hneg]
  simp only [battery_model_SOC_lookup, battery_model_table_SOCs]
  norm_num [hc]
  intro h0
  exact absurd h0 (by omega)

/-- For SOC at or above `11/10` the truncated index reaches the table
size and the second clamp fires. -/
theorem battery_model_SOC_lookup_high (soc : ℚ) (h : 11/10 ≤ soc) :
    battery_model_SOC_lookup soc = (10, 10) := by
  have hnn : (0 : ℚ) ≤ soc * 10 := by nlinarith
  have h11 : (11 : ℤ) ≤ ⌊soc * 10⌋ := Int.le_floor.mpr (by push_cast; nlinarith)
  have hc : c_int_of_float (soc * 10) = ⌊soc * 10⌋ := by
    unfold c_int_of_float
    rw [if_neg (not_lt.mpr hnn)]
  simp only [battery_model_SOC_lookup, battery_model_table_SOCs]
  norm_num [hc]
  rw [if_neg (not_lt.mpr (by omega : (0:ℤ) ≤ ⌊soc * 10⌋)), if_pos h11]

/-- For SOC strictly between `-1/10` and `0` the truncation toward zero
yields index 0, which is not negative, so the clamp does not fire and
the negative coordinate survives. -/
theorem battery_model_SOC_lookup_neg_gap (soc : ℚ) (ha : -(1/10) < soc) (hb : soc < 0) :
    battery_model_SOC_lookup soc = (soc * 10, 0) := by
  have hneg : soc * 10 < 0 := by nlinarith
  have hgt : -(soc * 10) < 1 := by nlinarith
  have hfl : ⌊-(soc * 10)⌋ = 0 := by
    rw [Int.floor_eq_zero_iff]
    constructor
    · linarith
    · exact hgt
  have hc : c_int_of_float (soc * 10) = 0 := by
    unfold c_int_of_float
    rw [if_pos hneg, hfl]
    norm_num
  simp only [battery_model_SOC_lookup, battery_model_table_SOCs]
  norm_num [hc]

/-- For SOC strictly between `1` and `11/10` the truncated index is the
last column but the coordinate keeps its fractional excess. -/
theorem battery_model_SOC_lookup_over_gap (soc : ℚ) (ha : 1 < soc) (hb : soc < 11/10) :
    battery_model_SOC_lookup soc = (soc * 10, 10) := by
  have hnn : (0 : ℚ) ≤ soc * 10 := by nlinarith
  have hfl : ⌊soc * 10⌋ = 10 := by
    rw [Int.floor_eq_iff]
    constructor
    · push_cast; nlinarith
    · push_cast; nlinarith
  have hc : c_int_of_float (soc * 10) = 10 := by
    unfold c_int_of_float
    rw [if_neg (not_lt.mpr hnn), hfl]
  simp only [battery_model_SOC_lookup, battery_model_table_SOCs]
  norm_num [hc]

/-- Any SOC of at least 1 resolves to the last SOC column. -/
theorem battery_model_SOC_lookup_ge_one (soc : ℚ) (h : 1 ≤ soc) :
    (battery_model_SOC_lookup soc).2 = 10 := by
  rcases eq_or_lt_of_le h with heq | hgt
  · rw [← heq, battery_model_SOC_lookup_at_one]
    norm_num
  · rcases lt_or_le soc (11/10) with hlt | hge
    · rw [battery_model_SOC_lookup_over_gap soc hgt hlt]
    · rw [battery_model_SOC_lookup_high soc hge]

/-- Interpolation in the last SOC column ignores the SOC coordinate:
the saturated next column coincides with the floor column, so both row
blends collapse to the stored last-column entries. -/
theorem battery_model_interpolate_last_col (table : ℕ → ℕ → ℚ)
    (T_number : ℚ) (T_index : ℕ) (s : ℚ) :
    battery_model_interpolate table T_number T_index s 10
      = table T_index 10
        + (table (battery_model_T_next T_index) 10 - table T_index 10)
          * (T_number - (T_index : ℚ)) := by
  simp only [battery_model_interpolate, battery_model_SOC_next, battery_model_table_SOCs]
  norm_num

/-- A zero-draw electrical step only rescales the capacitor charge by
the forward-Euler relaxation factor. -/
theorem battery_model_electrical_zero_state (junk : ℕ → ℕ → ℚ) (b : battery_model)
    (dt : ℚ) :
    (battery_model_electrical junk b 0 dt).1
      = { b with C1Q := b.C1Q * (1 - dt /
            ((battery_model_get_parameters junk b).R1
              * (battery_model_get_parameters junk b).C1)) } := by
  cases b with
  | mk cap soc q ct =>
    show battery_model.mk cap (soc - 0 * dt / cap)
        (q + (0 - (q / (battery_model_get_parameters junk ⟨cap, soc, q, ct⟩).C1)
            / (battery_model_get_parameters junk ⟨cap, soc, q, ct⟩).R1) * dt) ct
      = battery_model.mk cap soc
        (q * (1 - dt / ((battery_model_get_parameters junk ⟨cap, soc, q, ct⟩).R1
            * (battery_model_get_parameters junk ⟨cap, soc, q, ct⟩).C1))) ct
    simp only [battery_model.mk.injEq, true_and, and_true]
    refine ⟨by norm_num, by ring⟩

/-- Closed form for iterated zero-draw electrical steps: SOC, capacity
and temperature are untouched (so the resolved parameters never change)
and the capacitor charge decays geometrically. -/
theorem battery_model_iter_zero_closed (junk : ℕ → ℕ → ℚ) (dt : ℚ)
    (b : battery_model) (n : ℕ) :
    battery_model_electrical_iter junk 0 dt n b
      = { b with C1Q := b.C1Q * (1 - dt /
            ((battery_model_get_parameters junk b).R1
              * (battery_model_get_parameters junk b).C1)) ^ n } := by
  induction n generalizing b with
  | zero =>
    show b = _
    cases b
    simp
  | succ n ih =>
    show battery_model_electrical_iter junk 0 dt n (battery_model_electrical junk b 0 dt).1 = _
    rw [battery_model_electrical_zero_state junk b dt, ih]
    have hgp : battery_model_get_parameters junk
        { b with C1Q := b.C1Q * (1 - dt /
            ((battery_model_get_parameters junk b).R1
              * (battery_model_get_parameters junk b).C1)) }
      = battery_model_get_parameters junk b := battery_model_gp_congr _ _ _ rfl rfl
    rw [hgp]
    cases b with
    | mk cap soc q ct =>
      simp only [battery_model.mk.injEq, true_and, and_true]
      ring

/-- All four calibration tables have 4 rows of 11 entries. -/
theorem battery_model_tables_wf (data : List (List ℚ))
    (h : data ∈ [battery_model_Em_data, battery_model_R0_data,
      battery_model_R1_data, battery_model_C1_data]) :
    data.length = 4 ∧ ∀ row ∈ data, row.length = 11 := by
  simp only [List.mem_cons, List.not_mem_nil, or_false] at h
  rcases h with h | h | h | h <;> subst h <;>
    refine ⟨rfl, ?_⟩ <;> intro row hrow <;>
    simp only [battery_model_Em_data, battery_model_R0_data, battery_model_R1_data,
      battery_model_C1_data, List.mem_cons, List.not_mem_nil, or_false] at hrow <;>
    rcases hrow with h | h | h | h <;> subst h <;> rfl

/-- An in-bounds table access does not consult the out-of-bounds
memory model. -/
theorem battery_model_table_get_in_bounds (data : List (List ℚ))
    (hlen : data.length = 4) (hrow : ∀ row ∈ data, row.length = 11)
    (junk junk' : ℕ → ℕ → ℚ) (i j : ℕ) (hi : i ≤ 3) (hj : j ≤ 10) :
    battery_model_table_get data junk i j = battery_model_table_get data junk' i j := by
  have hi' : i < data.length := by omega
  obtain ⟨row, hrg⟩ : ∃ row, data.get? i = some row :=
    ⟨data.get ⟨i, hi'⟩, List.get?_eq_get hi'⟩
  have hrl : row.length = 11 := hrow row (List.get?_mem hrg)
  have hj' : j < row.length := by omega
  obtain ⟨v, hv⟩ : ∃ v, row.get? j = some v :=
    ⟨row.get ⟨j, hj'⟩, List.get?_eq_get hj'⟩
  unfold battery_model_table_get
  rw [hrg]
  show (row.get? j).getD (junk i j) = (row.get? j).getD (junk' i j)
  rw [hv]
  rfl

/-- C3 (confirmed): one electrical step updates the capacitor charge by
the RC-branch current times dt, decrements SOC by the drawn charge over
capacity, returns the Joule heat of both resistances over the step, and
leaves capacity and cell temperature unchanged, with all circuit
parameters resolved from the pre-state. -/
theorem C3_electrical_step (junk : ℕ → ℕ → ℚ) (b : battery_model) (amps dt : ℚ)
    (hdt : 0 < dt) :
    (battery_model_electrical junk b amps dt).1.C1Q
        = b.C1Q + (amps - (b.C1Q / (battery_model_get_parameters junk b).C1)
            / (battery_model_get_parameters junk b).R1) * dt
  ∧ (battery_model_electrical junk b amps dt).1.SOC = b.SOC - amps * dt / b.capacityAs
  ∧ (battery_model_electrical junk b amps dt).2
        = ((battery_model_get_parameters junk b).R0 * amps * amps
            + (b.C1Q / (battery_model_get_parameters junk b).C1)
              * ((b.C1Q / (battery_model_get_parameters junk b).C1)
                / (battery_model_get_parameters junk b).R1)) * dt
  ∧ (battery_model_electrical junk b amps dt).1.capacityAs = b.capacityAs
  ∧ (battery_model_electrical junk b amps dt).1.cellT = b.cellT :=
  ⟨rfl, rfl, rfl, rfl, rfl⟩

/-- Witness for C3 at a concrete state, draw current and timestep. -/
theorem C3_electrical_step_w :
    (0:ℚ) < 1
  ∧ (battery_model_electrical battery_model_oob_zero battery_model_demo_state 1 1).1.SOC
      = battery_model_demo_state.SOC - 1 * 1 / battery_model_demo_state.capacityAs :=
  ⟨by norm_num,
    (C3_electrical_step battery_model_oob_zero battery_model_demo_state 1 1 (by norm_num)).2.1⟩

/-- C5 (confirmed): the terminal voltage is the resolved open-circuit
voltage minus the relaxation voltage minus the series drop; the source
function takes the state by const pointer and returns only a number, so
the state is unchanged by construction. -/
theorem C5_voltage_formula (junk : ℕ → ℕ → ℚ) (b : battery_model) (amps : ℚ) :
    battery_model_voltage junk b amps
      = (battery_model_get_parameters junk b).Em
        - b.C1Q / (battery_model_get_parameters junk b).C1
        - (battery_model_get_parameters junk b).R0 * amps := rfl

/-- C8 (confirmed): the thermal step adds exactly
`(heat - (cellT - ambientT) * area / Rvalue * dt) / (specificHeat * mass)`
to the cell temperature and changes nothing else; with zero heat and
ambient equal to the cell temperature the state is exactly unchanged. -/
theorem C8_thermal_update (b : battery_model)
    (heating_joules specific_heat mass ambientT Rvalue area dt : ℚ) :
    battery_model_thermal b heating_joules specific_heat mass ambientT Rvalue area dt
      = { b with cellT := b.cellT
            + (heating_joules - (b.cellT - ambientT) * area / Rvalue * dt)
              / (specific_heat * mass) }
  ∧ (heating_joules = 0 → ambientT = b.cellT →
      battery_model_thermal b heating_joules specific_heat mass ambientT Rvalue area dt
        = b) := by
  constructor
  · rfl
  · intro h1 h2
    cases b with
    | mk cap soc q ct =>
      simp only at h2
      subst h1
      subst h2
      simp only [battery_model_thermal]
      norm_num

/-- Witness for C8 at a concrete state and thermal arguments. -/
theorem C8_thermal_update_w :
    ((0:ℚ) = 0)
  ∧ ((-20 : ℚ) = battery_model_demo_state.cellT)
  ∧ battery_model_thermal battery_model_demo_state 0 (9/10) 150 (-20) (1/10) (1/100) 12
      = battery_model_demo_state :=
  ⟨rfl, rfl,
    (C8_thermal_update battery_model_demo_state 0 (9/10) 150 (-20) (1/10) (1/100) 12).2
      rfl rfl⟩

/-- C9 (corrected): `battery_model_init` performs no validation at all;
for every capacity, including non-positive ones, it succeeds and fills
the state with `capacityAs = capacityAh * 3600`, the given SOC and
temperature, and `C1Q = 0`. -/
theorem C9_init_fields (capacityAh SOC tempC : ℚ) :
    battery_model_init capacityAh SOC tempC
      = { capacityAs := capacityAh * 3600, SOC := SOC, C1Q := 0, cellT := tempC } := by
  unfold battery_model_init
  norm_num

/-- Counterexample for C9 as frozen: constructing with capacity
-1 amp-hours (which is ≤ 0) does not fail: the constructor is a total
function and produces a fully populated state, so no
invalid-configuration error exists in the code. -/
theorem C9_init_no_validation_cx :
    battery_model_init (-1) (1/2) 20
      = { capacityAs := -3600, SOC := 1/2, C1Q := 0, cellT := 20 }
  ∧ (battery_model_init (-1) (1/2) 20).capacityAs ≤ 0 := by
  constructor
  · unfold battery_model_init
    norm_num
  · unfold battery_model_init
    norm_num

/-- C1 (corrected): the resolver does not clamp at temperature
extremes.  Below the lowest bucket the floor index is 0 but the
fractional coordinate is the negative `(cellT + 20) / 10`, so the
parameters are linearly extrapolated from the two lowest rows; at or
above the highest bucket the floor index is 3 with coordinate 0 (an
interpolation blend weight of `0 - 3 = -3`) and the saturated next row
index is one past the table, so the result reads out-of-bounds memory
instead of reproducing the highest row. -/
theorem C1_temperature_extremes (junk : ℕ → ℕ → ℚ) (b : battery_model) :
    (b.cellT < -20 →
        battery_model_T_lookup b.cellT = ((b.cellT + 20) / 10, 0)
      ∧ (b.cellT + 20) / 10 < 0
      ∧ (battery_model_get_parameters junk b).Em
          = battery_model_interpolate (battery_model_Em junk) ((b.cellT + 20) / 10) 0
              (battery_model_SOC_lookup b.SOC).1 (battery_model_SOC_lookup b.SOC).2.toNat)
  ∧ (2 ≤ b.cellT →
        battery_model_T_lookup b.cellT = (0, 3)
      ∧ battery_model_T_next 3 = battery_model_table_temps
      ∧ (battery_model_get_parameters junk b).Em
          = battery_model_interpolate (battery_model_Em junk) 0 3
              (battery_model_SOC_lookup b.SOC).1
              (battery_model_SOC_lookup b.SOC).2.toNat) := by
  constructor
  · intro h
    have hT := battery_model_T_lookup_low b.cellT h
    refine ⟨hT, div_neg_of_neg_of_pos (by linarith) (by norm_num), ?_⟩
    rw [battery_model_gp_unfold, hT]
  · intro h
    have hT := battery_model_T_lookup_high b.cellT h
    refine ⟨hT, by norm_num [battery_model_T_next, battery_model_table_temps], ?_⟩
    rw [battery_model_gp_unfold, hT]

/-- Witness for C1 at a concrete cold state and a concrete hot state. -/
theorem C1_temperature_extremes_w :
    (battery_model_cold_state.cellT < -20
      ∧ battery_model_T_lookup battery_model_cold_state.cellT
          = ((battery_model_cold_state.cellT + 20) / 10, 0))
  ∧ ((2 : ℚ) ≤ battery_model_hot_state.cellT
      ∧ battery_model_T_lookup battery_model_hot_state.cellT = (0, 3)) :=
  ⟨⟨by norm_num [battery_model_cold_state],
    ((C1_temperature_extremes battery_model_oob_zero battery_model_cold_state).1
      (by norm_num [battery_model_cold_state])).1⟩,
   ⟨by norm_num [battery_model_hot_state],
    ((C1_temperature_extremes battery_model_oob_zero battery_model_hot_state).2
      (by norm_num [battery_model_hot_state])).1⟩⟩

/-- Counterexample for C1 as frozen: at -30 degrees (below the lowest
bucket) the resolved open-circuit voltage is 3.753632 V, while the
lowest bucket itself (at -20 degrees, floor index 0 with zero offset)
resolves 3.75 V, so parameters below the calibrated range are not equal
to the lowest bucket's values. -/
theorem C1_temperature_clamp_cx :
    (battery_model_get_parameters battery_model_oob_zero battery_model_cold_state).Em
        = 3.753632
  ∧ (battery_model_get_parameters battery_model_oob_zero battery_model_floor_state).Em
        = 3.75
  ∧ ((3.753632 : ℚ) ≠ 3.75) := by
  have hS : battery_model_SOC_lookup (3/10 : ℚ) = (3, ((3 : ℕ) : ℤ)) := by
    norm_num [battery_model_SOC_lookup, c_int_of_float, battery_model_table_SOCs]
  have hTc : battery_model_T_lookup (-30 : ℚ) = (-1, 0) := by
    rw [battery_model_T_lookup_low (-30) (by norm_num)]
    norm_num
  refine ⟨?_, ?_, by norm_num⟩
  · rw [battery_model_gp_eval battery_model_oob_zero battery_model_cold_state
      (-1) 0 3 3 hTc hS]
    norm_num [battery_model_interpolate, battery_model_Em, battery_model_table_get,
      battery_model_SOC_next, battery_model_T_next, battery_model_Em_data,
      battery_model_table_SOCs, battery_model_table_temps, List.get?]
  · rw [battery_model_gp_eval battery_model_oob_zero battery_model_floor_state
      0 0 3 3 battery_model_T_lookup_at_lowest hS]
    norm_num [battery_model_interpolate, battery_model_Em, battery_model_table_get,
      battery_model_SOC_next, battery_model_T_next, battery_model_Em_data,
      battery_model_table_SOCs, battery_model_table_temps, List.get?]

/-- C2 (corrected): the SOC axis always saturates in bounds and for a
temperature floor index up to `temperatureBuckets - 2` every access is
in bounds (the result does not depend on the out-of-bounds memory
model); but at the last temperature row the "next" row index equals
`temperatureBuckets`, one past the last valid row, not
`temperatureBuckets - 1`.  The function itself is total: it always
returns a value. -/
theorem C2_interpolate_bounds (si ti : ℕ) (hsi : si ≤ 10) (hti : ti ≤ 3) :
    battery_model_SOC_next si ≤ 10
  ∧ (ti ≤ 2 → battery_model_T_next ti = ti + 1 ∧ battery_model_T_next ti ≤ 3)
  ∧ (ti = 3 → battery_model_T_next ti = battery_model_table_temps)
  ∧ (ti ≤ 2 → ∀ data ∈ [battery_model_Em_data, battery_model_R0_data,
        battery_model_R1_data, battery_model_C1_data],
      ∀ junk junk' : ℕ → ℕ → ℚ, ∀ T_number SOC_number : ℚ,
        battery_model_interpolate (battery_model_table_get data junk)
            T_number ti SOC_number si
          = battery_model_interpolate (battery_model_table_get data junk')
              T_number ti SOC_number si) := by
  have hsn : battery_model_SOC_next si ≤ 10 := by
    unfold battery_model_SOC_next battery_model_table_SOCs
    split <;> omega
  refine ⟨hsn, ?_, ?_, ?_⟩
  · intro h
    unfold battery_model_T_next battery_model_table_temps
    rw [if_neg (by omega)]
    omega
  · intro h
    subst h
    unfold battery_model_T_next battery_model_table_temps
    norm_num
  · intro h data hdata junk junk' Tn Sn
    obtain ⟨hlen, hrow⟩ := battery_model_tables_wf data hdata
    have htn : battery_model_T_next ti = ti + 1 := by
      unfold battery_model_T_next battery_model_table_temps
      rw [if_neg (by omega)]
    have e1 := battery_model_table_get_in_bounds data hlen hrow junk junk'
      ti si (by omega) hsi
    have e2 := battery_model_table_get_in_bounds data hlen hrow junk junk'
      ti (battery_model_SOC_next si) (by omega) hsn
    have e3 := battery_model_table_get_in_bounds data hlen hrow junk junk'
      (ti + 1) si (by omega) hsi
    have e4 := battery_model_table_get_in_bounds data hlen hrow junk junk'
      (ti + 1) (battery_model_SOC_next si) (by omega) hsn
    simp only [battery_model_interpolate, htn]
    rw [e1, e2, e3, e4]

/-- Witness for C2 at the first cell of the grid. -/
theorem C2_interpolate_bounds_w :
    (0 : ℕ) ≤ 10 ∧ (0 : ℕ) ≤ 3 ∧ battery_model_SOC_next 0 ≤ 10 :=
  ⟨by norm_num, by norm_num,
    (C2_interpolate_bounds 0 0 (by norm_num) (by norm_num)).1⟩

/-- Counterexample for C2 as frozen: at the last temperature row the
"next" row index is 4 = temperatureBuckets, exceeding
temperatureBuckets - 1, and the out-of-bounds read is real: two
different models of the adjacent memory give different interpolation
results there. -/
theorem C2_interpolate_oob_cx :
    battery_model_T_next 3 = battery_model_table_temps
  ∧ ¬ battery_model_T_next 3 ≤ battery_model_table_temps - 1
  ∧ battery_model_interpolate
        (battery_model_table_get battery_model_Em_data (fun _ _ => 0)) 0 3 0 0
      ≠ battery_model_interpolate
          (battery_model_table_get battery_model_Em_data (fun _ _ => 1)) 0 3 0 0 := by
  refine ⟨by norm_num [battery_model_T_next, battery_model_table_temps],
    by norm_num [battery_model_T_next, battery_model_table_temps], ?_⟩
  norm_num [battery_model_interpolate, battery_model_table_get, battery_model_SOC_next,
    battery_model_T_next, battery_model_table_SOCs, battery_model_table_temps,
    battery_model_Em_data, List.get?]

/-- C4 (corrected): the SOC coordinate is `soc * (socBuckets - 1)` and
behaves as claimed on `[0, 1]`; but because the C `(int)` cast truncates
toward zero, only `soc ≤ -1/10` and `soc ≥ 11/10` are actually clamped
to an edge bucket with zero fraction.  For `soc` in `(-1/10, 0)` the
index is 0 with a surviving negative fractional coordinate (the SOC
axis is extrapolated there), and for `soc` in `(1, 11/10)` the index is
`socBuckets - 1` with a surviving positive fraction. -/
theorem C4_SOC_axis (soc : ℚ) :
    (0 ≤ soc → soc < 1 →
        battery_model_SOC_lookup soc = (soc * 10, ⌊soc * 10⌋)
      ∧ (0 ≤ ⌊soc * 10⌋ ∧ ⌊soc * 10⌋ ≤ 9)
      ∧ 0 ≤ soc * 10 - (⌊soc * 10⌋ : ℚ) ∧ soc * 10 - (⌊soc * 10⌋ : ℚ) < 1)
  ∧ (soc = 1 → battery_model_SOC_lookup soc = (10, 10))
  ∧ (soc ≤ -(1/10) → battery_model_SOC_lookup soc = (0, 0))
  ∧ (11/10 ≤ soc → battery_model_SOC_lookup soc = (10, 10))
  ∧ (-(1/10) < soc → soc < 0 →
        battery_model_SOC_lookup soc = (soc * 10, 0) ∧ soc * 10 < 0)
  ∧ (1 < soc → soc < 11/10 →
        battery_model_SOC_lookup soc = (soc * 10, 10)
      ∧ 0 < soc * 10 - 10 ∧ soc * 10 - 10 < 1) := by
  refine ⟨?_, ?_, ?_, ?_, ?_, ?_⟩
  · intro h0 h1
    have hfl0 : (0 : ℤ) ≤ ⌊soc * 10⌋ := Int.floor_nonneg.mpr (by positivity)
    have hfl9 : ⌊soc * 10⌋ ≤ 9 := by
      have : ⌊soc * 10⌋ < 10 := Int.floor_lt.mpr (by push_cast; nlinarith)
      omega
    have hle := Int.floor_le (soc * 10)
    have hlt := Int.lt_floor_add_one (soc * 10)
    exact ⟨battery_model_SOC_lookup_in_range soc h0 h1, ⟨hfl0, hfl9⟩,
      by linarith, by linarith⟩
  · intro h
    subst h
    rw [battery_model_SOC_lookup_at_one]
    norm_num
  · exact battery_model_SOC_lookup_low soc
  · exact battery_model_SOC_lookup_high soc
  · intro ha hb
    exact ⟨battery_model_SOC_lookup_neg_gap soc ha hb, by nlinarith⟩
  · intro ha hb
    refine ⟨battery_model_SOC_lookup_over_gap soc ha hb, by nlinarith, by nlinarith⟩

/-- Witness for C4 at SOC one half. -/
theorem C4_SOC_axis_w :
    (0 : ℚ) ≤ 1/2 ∧ (1/2 : ℚ) < 1
  ∧ battery_model_SOC_lookup (1/2) = ((1/2 : ℚ) * 10, ⌊(1/2 : ℚ) * 10⌋) :=
  ⟨by norm_num, by norm_num,
    ((C4_SOC_axis (1/2)).1 (by norm_num) (by norm_num)).1⟩

/-- Counterexample for C4 as frozen: at SOC `-1/20` (outside `[0,1]`)
the resolved coordinate is `-1/2` with floor index 0 — the coordinate
is not clamped and its fractional part is not zero — and the resolver
extrapolates: the resolved Em is 3.425 V instead of the edge bucket's
3.5 V. -/
theorem C4_SOC_clamp_cx :
    battery_model_SOC_lookup (-(1/20)) = (-(1/2), 0)
  ∧ ((-(1/2) : ℚ) ≠ 0)
  ∧ (battery_model_get_parameters battery_model_oob_zero
        { capacityAs := 6480, SOC := -(1/20), C1Q := 0, cellT := -20 }).Em = 3.425
  ∧ (battery_model_get_parameters battery_model_oob_zero
        { capacityAs := 6480, SOC := 0, C1Q := 0, cellT := -20 }).Em = 3.5
  ∧ ((3.425 : ℚ) ≠ 3.5) := by
  have hS : battery_model_SOC_lookup (-(1/20) : ℚ) = (-(1/2), ((0 : ℕ) : ℤ)) := by
    norm_num [battery_model_SOC_lookup, c_int_of_float, battery_model_table_SOCs]
  have hS0 : battery_model_SOC_lookup (0 : ℚ) = (0, ((0 : ℕ) : ℤ)) := by
    norm_num [battery_model_SOC_lookup, c_int_of_float, battery_model_table_SOCs]
  refine ⟨by rw [hS]; norm_num, by norm_num, ?_, ?_, by norm_num⟩
  · rw [battery_model_gp_eval battery_model_oob_zero
      { capacityAs := 6480, SOC := -(1/20), C1Q := 0, cellT := -20 }
      0 0 (-(1/2)) 0 battery_model_T_lookup_at_lowest hS]
    norm_num [battery_model_interpolate, battery_model_Em, battery_model_table_get,
      battery_model_SOC_next, battery_model_T_next, battery_model_Em_data,
      battery_model_table_SOCs, battery_model_table_temps, List.get?]
  · rw [battery_model_gp_eval battery_model_oob_zero
      { capacityAs := 6480, SOC := 0, C1Q := 0, cellT := -20 }
      0 0 0 0 battery_model_T_lookup_at_lowest hS0]
    norm_num [battery_model_interpolate, battery_model_Em, battery_model_table_get,
      battery_model_SOC_next, battery_model_T_next, battery_model_Em_data,
      battery_model_table_SOCs, battery_model_table_temps, List.get?]

/-- C6 (confirmed): with positive draw current, positive timestep and
positive resolved series and parallel resistances, the heat returned by
the electrical step is non-negative. -/
theorem C6_heat_nonneg (junk : ℕ → ℕ → ℚ) (b : battery_model) (amps dt : ℚ)
    (ha : 0 < amps) (hdt : 0 < dt)
    (hR0 : 0 < (battery_model_get_parameters junk b).R0)
    (hR1 : 0 < (battery_model_get_parameters junk b).R1) :
    0 ≤ (battery_model_electrical junk b amps dt).2 := by
  show 0 ≤ ((battery_model_get_parameters junk b).R0 * amps * amps
      + (b.C1Q / (battery_model_get_parameters junk b).C1)
        * ((b.C1Q / (battery_model_get_parameters junk b).C1)
          / (battery_model_get_parameters junk b).R1)) * dt
  have h1 : 0 ≤ (battery_model_get_parameters junk b).R0 * amps * amps := by positivity
  have h2 : 0 ≤ (b.C1Q / (battery_model_get_parameters junk b).C1)
      * ((b.C1Q / (battery_model_get_parameters junk b).C1)
        / (battery_model_get_parameters junk b).R1) := by
    rw [← mul_div_assoc]
    exact div_nonneg (mul_self_nonneg _) hR1.le
  exact mul_nonneg (add_nonneg h1 h2) hdt.le

/-- Witness for C6 at the demo state with 1 A drawn for 1 s. -/
theorem C6_heat_nonneg_w :
    (0 : ℚ) < 1
  ∧ 0 < (battery_model_get_parameters battery_model_oob_zero battery_model_demo_state).R0
  ∧ 0 < (battery_model_get_parameters battery_model_oob_zero battery_model_demo_state).R1
  ∧ 0 ≤ (battery_model_electrical battery_model_oob_zero battery_model_demo_state 1 1).2 :=
  ⟨by norm_num,
   by rw [battery_model_gp_demo_eval]; norm_num,
   by rw [battery_model_gp_demo_eval]; norm_num,
   C6_heat_nonneg battery_model_oob_zero battery_model_demo_state 1 1
     (by norm_num) (by norm_num)
     (by rw [battery_model_gp_demo_eval]; norm_num)
     (by rw [battery_model_gp_demo_eval]; norm_num)⟩

/-- The relaxation witness state resolves the same parameters as the
demo state: the resolver ignores the capacitor charge. -/
theorem battery_model_gp_relax_eval :
    battery_model_get_parameters battery_model_oob_zero battery_model_relax_state
      = { Em := 4.2, R0 := 0.67, R1 := 0.85, C1 := 596 } := by
  have h : battery_model_get_parameters battery_model_oob_zero battery_model_relax_state
      = battery_model_get_parameters battery_model_oob_zero battery_model_demo_state :=
    battery_model_gp_congr _ _ _ rfl rfl
  rw [h, battery_model_gp_demo_eval]

/-- C7 (corrected): a zero-draw electrical step leaves SOC exactly
unchanged (the decrement is identically zero) and rescales the
capacitor charge by `1 - dt / (R1 * C1)`; SOC is exactly preserved by
any number of zero-draw steps.  The decay of the capacitor charge to 0,
however, additionally requires the forward-Euler stability bound
`dt < 2 * R1 * C1`; the claim's hypotheses (only `dt > 0` and positive
R1, C1) do not suffice. -/
theorem C7_zero_draw_relaxation (junk : ℕ → ℕ → ℚ) (b : battery_model) (dt : ℚ)
    (hdt : 0 < dt) :
    (battery_model_electrical junk b 0 dt).1.SOC = b.SOC
  ∧ (battery_model_electrical junk b 0 dt).1.C1Q
      = b.C1Q * (1 - dt / ((battery_model_get_parameters junk b).R1
          * (battery_model_get_parameters junk b).C1))
  ∧ (∀ n, (battery_model_electrical_iter junk 0 dt n b).SOC = b.SOC)
  ∧ (0 < (battery_model_get_parameters junk b).R1 →
      0 < (battery_model_get_parameters junk b).C1 →
      dt < 2 * ((battery_model_get_parameters junk b).R1
          * (battery_model_get_parameters junk b).C1) →
      ∀ ε : ℚ, 0 < ε → ∃ N : ℕ, ∀ n, N ≤ n →
        |(battery_model_electrical_iter junk 0 dt n b).C1Q| < ε) := by
  have hstate := battery_model_electrical_zero_state junk b dt
  refine ⟨by rw [hstate], by rw [hstate], ?_, ?_⟩
  · intro n
    rw [battery_model_iter_zero_closed]
  · intro hR1 hC1 hstab ε hε
    have hRC : 0 < (battery_model_get_parameters junk b).R1
        * (battery_model_get_parameters junk b).C1 := mul_pos hR1 hC1
    have hq1 : 0 < dt / ((battery_model_get_parameters junk b).R1
        * (battery_model_get_parameters junk b).C1) := div_pos hdt hRC
    have hq2 : dt / ((battery_model_get_parameters junk b).R1
        * (battery_model_get_parameters junk b).C1) < 2 :=
      (div_lt_iff₀ hRC).mpr (by linarith)
    have habs : |1 - dt / ((battery_model_get_parameters junk b).R1
        * (battery_model_get_parameters junk b).C1)| < 1 :=
      abs_lt.mpr ⟨by linarith, by linarith⟩
    by_cases hb : b.C1Q = 0
    · refine ⟨0, fun n _ => ?_⟩
      rw [battery_model_iter_zero_closed]
      show |b.C1Q * (1 - dt / ((battery_model_get_parameters junk b).R1
          * (battery_model_get_parameters junk b).C1)) ^ n| < ε
      rw [hb]
      simpa using hε
    · have hbpos : 0 < |b.C1Q| := abs_pos.mpr hb
      obtain ⟨N, hN⟩ := exists_pow_lt_of_lt_one (div_pos hε hbpos) habs
      refine ⟨N, fun n hn => ?_⟩
      rw [battery_model_iter_zero_closed]
      show |b.C1Q * (1 - dt / ((battery_model_get_parameters junk b).R1
          * (battery_model_get_parameters junk b).C1)) ^ n| < ε
      rw [abs_mul, abs_pow]
      have hmono : |1 - dt / ((battery_model_get_parameters junk b).R1
          * (battery_model_get_parameters junk b).C1)| ^ n
          ≤ |1 - dt / ((battery_model_get_parameters junk b).R1
            * (battery_model_get_parameters junk b).C1)| ^ N :=
        pow_le_pow_of_le_one (abs_nonneg _) habs.le hn
      calc |b.C1Q| * |1 - dt / ((battery_model_get_parameters junk b).R1
              * (battery_model_get_parameters junk b).C1)| ^ n
          ≤ |b.C1Q| * |1 - dt / ((battery_model_get_parameters junk b).R1
              * (battery_model_get_parameters junk b).C1)| ^ N :=
            mul_le_mul_of_nonneg_left hmono (abs_nonneg _)
        _ = |1 - dt / ((battery_model_get_parameters junk b).R1
              * (battery_model_get_parameters junk b).C1)| ^ N * |b.C1Q| :=
            mul_comm _ _
        _ < ε := (lt_div_iff₀ hbpos).mp hN

/-- Witness for C7 at the relaxation state with a 1 s timestep. -/
theorem C7_zero_draw_relaxation_w :
    (0 : ℚ) < 1
  ∧ (∀ n, (battery_model_electrical_iter battery_model_oob_zero 0 1 n
        battery_model_relax_state).SOC = battery_model_relax_state.SOC) :=
  ⟨by norm_num,
   (C7_zero_draw_relaxation battery_model_oob_zero battery_model_relax_state 1
      (by norm_num)).2.2.1⟩

/-- Counterexample for C7 as frozen: with `dt = 7599/5` s (which is
`3 * R1 * C1` at the relaxation state, still positive, with positive
resolved R1 and C1) each zero-draw step multiplies the capacitor charge
by `-2`, so the iterates are `(-2)^n` and do not tend to 0. -/
theorem C7_zero_draw_divergence_cx :
    (0 : ℚ) < 7599/5
  ∧ 0 < (battery_model_get_parameters battery_model_oob_zero battery_model_relax_state).R1
  ∧ 0 < (battery_model_get_parameters battery_model_oob_zero battery_model_relax_state).C1
  ∧ (∀ n, (battery_model_electrical_iter battery_model_oob_zero 0 (7599/5) n
        battery_model_relax_state).C1Q = (-2) ^ n)
  ∧ ¬ (∀ ε : ℚ, 0 < ε → ∃ N : ℕ, ∀ n, N ≤ n →
        |(battery_model_electrical_iter battery_model_oob_zero 0 (7599/5) n
            battery_model_relax_state).C1Q| < ε) := by
  have hcf : ∀ n, (battery_model_electrical_iter battery_model_oob_zero 0 (7599/5) n
      battery_model_relax_state).C1Q = (-2) ^ n := by
    intro n
    rw [battery_model_iter_zero_closed]
    show battery_model_relax_state.C1Q * (1 - (7599/5) /
        ((battery_model_get_parameters battery_model_oob_zero battery_model_relax_state).R1
          * (battery_model_get_parameters battery_model_oob_zero
              battery_model_relax_state).C1)) ^ n
      = (-2) ^ n
    rw [battery_model_gp_relax_eval]
    norm_num [battery_model_relax_state]
  refine ⟨by norm_num,
    by rw [battery_model_gp_relax_eval]; norm_num,
    by rw [battery_model_gp_relax_eval]; norm_num, hcf, ?_⟩
  intro hconv
  obtain ⟨N, hN⟩ := hconv 1 one_pos
  have h2 := hN N le_rfl
  rw [hcf N] at h2
  have h3 : |(-2 : ℚ) ^ N| = 2 ^ N := by
    rw [abs_pow]
    norm_num
  rw [h3] at h2
  have h4 : (1 : ℚ) ≤ 2 ^ N := by
    calc (1 : ℚ) = 2 ^ (0 : ℕ) := by norm_num
      _ ≤ 2 ^ N := pow_le_pow_right₀ (by norm_num) (Nat.zero_le N)
  linarith

/-- C10 (confirmed): when the SOC floor index is the last column, the
saturated next column coincides with it, so the interpolation is
independent of the SOC coordinate and collapses to the stored
last-column values of the two temperature rows; consequently the
resolver yields identical parameters for every SOC of at least 1 at a
fixed cell temperature. -/
theorem C10_last_SOC_column (table : ℕ → ℕ → ℚ) (T_number : ℚ) (ti : ℕ)
    (hti : ti ≤ 2) (s s' : ℚ) :
    battery_model_interpolate table T_number ti s 10
        = battery_model_interpolate table T_number ti s' 10
  ∧ battery_model_interpolate table T_number ti s 10
        = table ti 10 + (table (battery_model_T_next ti) 10 - table ti 10)
            * (T_number - (ti : ℚ))
  ∧ ∀ (junk : ℕ → ℕ → ℚ) (cap q cellT soc soc' : ℚ), 1 ≤ soc → 1 ≤ soc' →
      battery_model_get_parameters junk ⟨cap, soc, q, cellT⟩
        = battery_model_get_parameters junk ⟨cap, soc', q, cellT⟩ := by
  refine ⟨?_, battery_model_interpolate_last_col table T_number ti s, ?_⟩
  · rw [battery_model_interpolate_last_col, battery_model_interpolate_last_col]
  · intro junk cap q cellT soc soc' h1 h2
    have e1 : (battery_model_SOC_lookup soc).2.toNat = 10 := by
      rw [battery_model_SOC_lookup_ge_one soc h1]
      rfl
    have e2 : (battery_model_SOC_lookup soc').2.toNat = 10 := by
      rw [battery_model_SOC_lookup_ge_one soc' h2]
      rfl
    rw [battery_model_gp_unfold, battery_model_gp_unfold]
    simp only [e1, e2, battery_model_interpolate_last_col]

/-- Witness for C10: interpolation at the last column, and identical
resolved parameters at SOC 1 and SOC 3/2 for a fixed temperature. -/
theorem C10_last_SOC_column_w :
    (0 : ℕ) ≤ 2 ∧ ((1 : ℚ) ≤ 1) ∧ ((1 : ℚ) ≤ 3/2)
  ∧ battery_model_get_parameters battery_model_oob_zero ⟨6480, 1, 0, -20⟩
      = battery_model_get_parameters battery_model_oob_zero ⟨6480, 3/2, 0, -20⟩ :=
  ⟨by norm_num, by norm_num, by norm_num,
    (C10_last_SOC_column (battery_model_Em battery_model_oob_zero) 0 0
        (by norm_num) 0 0).2.2
      battery_model_oob_zero 6480 0 (-20) 1 (3/2) (by norm_num) (by norm_num)⟩
